import Mathlib

/-!
# Verification of the MoneyPrinterTurbo video assembly pipeline

Shallow embedding of `app/services/video.py`, `app/services/task.py` and
`app/models/schema.py`.  Durations, pixel ratios and progress values are
modelled as rationals (the Python code uses floats; the statements proved
here are the exact idealisations of the float computations).  Each section
names the source lines it embeds.
-/

namespace MPT

/-! ## Subtitle custom position (`generate_video.create_text_clip`, video.py 349-358)

```
margin = 10
max_y = video_height - _clip.h - margin
min_y = margin
custom_y = (video_height - _clip.h) * (params.custom_position / 100)
custom_y = max(min_y, min(custom_y, max_y))
```
-/

def customY (H h pos : ℚ) : ℚ :=
  let margin : ℚ := 10
  let maxY := H - h - margin
  let minY := margin
  let cy := (H - h) * (pos / 100)
  max minY (min cy maxY)

/-! ## Frame normalizer (`combine_videos`, video.py 134-175)

```
clip_w, clip_h = clip.size
if clip_w != video_width or clip_h != video_height:
    clip_ratio = clip.w / clip.h
    video_ratio = video_width / video_height
    if clip_ratio == video_ratio:
        clip = clip.resized((video_width, video_height))
    else:
        if clip_ratio > video_ratio:
            scale_factor = video_width / clip_w
        else:
            scale_factor = video_height / clip_h
        new_width = int(clip_w * scale_factor)
        new_height = int(clip_h * scale_factor)
        clip_resized = clip.resized(new_size=(new_width, new_height))
        background = ColorClip(size=(video_width, video_height), color=(0, 0, 0))
        clip = CompositeVideoClip([background.with_duration(clip.duration),
                                   clip_resized.with_position("center")])
```
`int()` on the nonnegative float products is truncation, i.e. `Int.floor`.
-/

/-- The three shapes a segment can take after the normalizer block. -/
inductive NormStep where
  /-- resolution already equals the target: the block is skipped -/
  | keep : NormStep
  /-- equal aspect ratios: directly resized to the target resolution -/
  | direct : NormStep
  /-- scaled to `(newW, newH)` and composited centered over an opaque black
      `ColorClip` background of the target size; the composite's size is the
      size of its first clip, i.e. the background -/
  | letterbox (newW newH : ℤ) : NormStep

def normalizeClip (W H w h : ℕ) : NormStep :=
  if w ≠ W ∨ h ≠ H then
    let clipRatio : ℚ := (w : ℚ) / (h : ℚ)
    let videoRatio : ℚ := (W : ℚ) / (H : ℚ)
    if clipRatio = videoRatio then
      NormStep.direct
    else
      let scaleFactor : ℚ :=
        if videoRatio < clipRatio then (W : ℚ) / (w : ℚ) else (H : ℚ) / (h : ℚ)
      NormStep.letterbox ⌊(w : ℚ) * scaleFactor⌋ ⌊(h : ℚ) * scaleFactor⌋
  else
    NormStep.keep

/-- Output resolution of the normalizer block: `keep` leaves the native
resolution, `direct` resizes to the target, and in the `letterbox` case the
`CompositeVideoClip` takes the size of its first clip, the `(W, H)` black
background. -/
def normOutputSize (W H w h : ℕ) : ℕ × ℕ :=
  match normalizeClip W H w h with
  | NormStep.keep => (w, h)
  | NormStep.direct => (W, H)
  | NormStep.letterbox _ _ => (W, H)

/-! ## AudioMixer background-music pipeline (`generate_video`, video.py 385-395)

```
bgm_clip = AudioFileClip(bgm_file).with_effects([
    afx.MultiplyVolume(params.bgm_volume),
    afx.AudioFadeOut(3),
    afx.AudioLoop(duration=video_clip.duration),
])
audio_clip = CompositeAudioClip([audio_clip, bgm_clip])
```
`with_effects` applies the effects left to right: volume scaling, then the
3-second fade-out, then looping to the video duration.
-/

/-- An audio clip modelled by its duration and its gain envelope: `gain t` is
the multiplier applied to the source signal at time `t`. -/
structure AClip where
  dur : ℚ
  gain : ℚ → ℚ

/-- Modelled from the spec: moviepy's `afx.MultiplyVolume(v)` scales the
whole signal by `v` (the effect implementations are outside `src/`). -/
def multiplyVolume (v : ℚ) (a : AClip) : AClip :=
  ⟨a.dur, fun t => v * a.gain t⟩

/-- Modelled from the spec: moviepy's `afx.AudioFadeOut(d)` ramps the gain
linearly from 1 down to 0 over the final `d` seconds of the clip it is
applied to. -/
def audioFadeOut (d : ℚ) (a : AClip) : AClip :=
  ⟨a.dur, fun t => a.gain t * min 1 (max 0 ((a.dur - t) / d))⟩

/-- Time `t` reduced modulo a period `p`. -/
def tmod (t p : ℚ) : ℚ := t - p * ⌊t / p⌋

/-- Modelled from the spec: moviepy's `afx.AudioLoop(duration=D)` repeats
the clip cyclically and cuts the result at duration `D`. -/
def audioLoop (D : ℚ) (a : AClip) : AClip :=
  ⟨D, fun t => a.gain (tmod t a.dur)⟩

/-- The background-music pipeline exactly as `generate_video` builds it
(video.py 388-394): volume, then fade-out, then loop. -/
def bgmPipeline (v vidDur : ℚ) (a : AClip) : AClip :=
  audioLoop vidDur (audioFadeOut 3 (multiplyVolume v a))

/-- The pipeline the claim describes: volume, then loop to the video
duration, then one fade-out at the end of the full-length track. -/
def bgmPipelineClaimed (v vidDur : ℚ) (a : AClip) : AClip :=
  audioFadeOut 3 (audioLoop vidDur (multiplyVolume v a))

/-! ## Background-music selection and the try/except (video.py 33-46, 385-397)

```
def get_bgm_file(bgm_type: str = "random", bgm_file: str = ""):
    if not bgm_type:
        return ""
    if bgm_file and os.path.exists(bgm_file):
        return bgm_file
    if bgm_type == "random":
        suffix = "*.mp3"
        song_dir = utils.song_dir()
        files = glob.glob(os.path.join(song_dir, suffix))
        return random.choice(files)
    return ""
```
and in `generate_video`:
```
bgm_file = get_bgm_file(bgm_type=params.bgm_type, bgm_file=params.bgm_file)
if bgm_file:
    try:
        bgm_clip = AudioFileClip(bgm_file).with_effects([...])
        audio_clip = CompositeAudioClip([audio_clip, bgm_clip])
    except Exception as e:
        logger.error(f"failed to add bgm: ...")
```
The filesystem is a parameter (`exists_`, `songFiles`), `random.choice` is
parameterised by an index `pick`, and decoder success by `decodeOk`.
`random.choice` on an empty list raises `IndexError`; the `get_bgm_file`
call sits *outside* the try/except.
-/

/-- A Python exception escaping the modelled code. -/
inductive PyError where
  | indexError : PyError
  | attributeError : PyError
deriving DecidableEq

def get_bgm_file (bgmType bgmFile : String) (exists_ : String → Bool)
    (songFiles : List String) (pick : ℕ) : Except PyError String :=
  if bgmType = "" then Except.ok ""
  else if bgmFile ≠ "" ∧ exists_ bgmFile = true then Except.ok bgmFile
  else if bgmType = "random" then
    match songFiles with
    | [] => Except.error PyError.indexError
    | f :: fs => Except.ok ((f :: fs).getD (pick % (f :: fs).length) f)
  else Except.ok ""

/-- Outcome of the audio-mixing portion of `generate_video`. -/
inductive AudioOutcome where
  | voiceOnly : AudioOutcome
  | mixed (bgmFile : String) : AudioOutcome
deriving DecidableEq

/-- The background-music section of `generate_video` (video.py 385-397):
select a track (outside any try/except), then mix it in, falling back to the
voice-only track when anything inside the `try` fails. -/
def bgmSection (bgmType bgmFile : String) (exists_ : String → Bool)
    (songFiles : List String) (pick : ℕ) (decodeOk : String → Bool) :
    Except PyError AudioOutcome :=
  match get_bgm_file bgmType bgmFile exists_ songFiles pick with
  | Except.error e => Except.error e
  | Except.ok f =>
      if f = "" then Except.ok AudioOutcome.voiceOnly
      else if decodeOk f then Except.ok (AudioOutcome.mixed f)
      else Except.ok AudioOutcome.voiceOnly

/-! ## Concat-mode coercion in the orchestrator (task.py 126-207)

`get_video_materials` (stage 5) forwards `params.video_concat_mode` to the
material provider unchanged (task.py 146), while `generate_final_videos`
(stage 6) computes a local
```
video_concat_mode = (
    params.video_concat_mode if params.video_count == 1 else VideoConcatMode.random
)
```
once, before its per-output loop (task.py 164-166), and passes that local to
every `combine_videos` call; `params` itself is never mutated.
-/

inductive VideoConcatMode where
  | random : VideoConcatMode
  | sequential : VideoConcatMode
deriving DecidableEq

/-- The slice of `VideoParams` (schema.py) the concat-mode claims need. -/
structure ConcatParams where
  video_concat_mode : VideoConcatMode
  video_count : ℕ

/-- The concat mode `get_video_materials` hands to
`material.download_videos` (task.py 146): the raw params field. -/
def materialsConcatMode (p : ConcatParams) : VideoConcatMode :=
  p.video_concat_mode

/-- The local coerced concat mode computed once at the start of
`generate_final_videos` (task.py 164-166). -/
def effectiveConcatMode (p : ConcatParams) : VideoConcatMode :=
  if p.video_count = 1 then p.video_concat_mode else VideoConcatMode.random

/-- The concat-mode argument of each `combine_videos` call issued by
`generate_final_videos`' per-output loop (task.py 170-185): every output
index receives the same local coerced value. -/
def combineCallConcatModes (p : ConcatParams) : List VideoConcatMode :=
  (List.range p.video_count).map (fun _ => effectiveConcatMode p)

/-! ## The duration-packing loop (`combine_videos`, video.py 74-76, 121-210)

```
req_dur = audio_duration / len(video_paths)
req_dur = max_clip_duration
...
while video_duration < audio_duration:
    for clip in raw_clips:
        if (audio_duration - video_duration) < clip.duration:
            clip = clip.subclipped(0, (audio_duration - video_duration))
        elif req_dur < clip.duration:
            clip = clip.subclipped(0, req_dur)
        clip = clip.with_fps(30)
        ...resize / letterbox...       # duration unchanged
        ...transition effect...        # duration-preserving (1 s window inside the clip)
        if clip.duration > max_clip_duration:
            clip = clip.subclipped(0, max_clip_duration)
        clips.append(clip)
        video_duration += clip.duration
```
Segments are modelled by their durations (ℚ).  The resize/letterbox and
fps steps do not change duration; the transition effects (fade/slide, from
`app/services/utils/video_effects`, outside `src/`) are modelled from the
spec as duration-preserving, and the source re-clamps duration to
`max_clip_duration` afterwards in any case.  The `while` loop is given a
fuel bound counting full passes over the pool; the `Bool` in the result
records whether the loop has exited (`video_duration < audio_duration`
became false) within that fuel.
-/

/-- Duration of one pool segment after the remaining/`req_dur` trim
(video.py 124-130); `req_dur` equals `max_clip_duration` (video.py 76). -/
def trimDur1 (target maxDur acc d : ℚ) : ℚ :=
  if target - acc < d then target - acc
  else if maxDur < d then maxDur else d

/-- The duration after the final clamp (video.py 204-205) re-checks the
segment against `max_clip_duration`. -/
def trimDur (target maxDur acc d : ℚ) : ℚ :=
  if maxDur < trimDur1 target maxDur acc d then maxDur
  else trimDur1 target maxDur acc d

/-- One pass of the inner `for clip in raw_clips` loop: appends every pool
segment (trimmed) and accumulates `video_duration`.  The pass never breaks
early. -/
def packPass (target maxDur : ℚ) : List ℚ → ℚ → List ℚ × ℚ
  | [], acc => ([], acc)
  | d :: rest, acc =>
    let d' := trimDur target maxDur acc d
    let r := packPass target maxDur rest (acc + d')
    (d' :: r.1, r.2)

/-- The outer `while video_duration < audio_duration` loop, with `fuel`
bounding the number of passes.  Returns the appended durations, the final
accumulated duration, and whether the loop has exited. -/
def packLoop (target maxDur : ℚ) (pool : List ℚ) : ℕ → ℚ → List ℚ × ℚ × Bool
  | 0, acc => ([], acc, decide (target ≤ acc))
  | fuel + 1, acc =>
    if acc < target then
      let p := packPass target maxDur pool acc
      let r := packLoop target maxDur pool fuel p.2
      (p.1 ++ r.1, r.2)
    else ([], acc, true)

/-! ## Transition selection (`combine_videos`, video.py 177-201; schema.py 21-27)

```
class VideoTransitionMode(str, Enum):
    none = None
    shuffle = "Shuffle"
    fade_in = "FadeIn"
    fade_out = "FadeOut"
    slide_in = "SlideIn"
    slide_out = "SlideOut"
```
Because of the `str` mix-in, the member declared as `none = None` carries
the value `str(None) = "None"`.  `combine_videos` dispatches on
`video_transition_mode.value == VideoTransitionMode.<member>.value`; when
`video_transition_mode` is the Python `None` object (the declared default of
both the function parameter and `VideoParams.video_transition_mode`),
evaluating `.value` on it raises `AttributeError`.  A Python-`None`-able
mode is `Option VideoTransitionMode`.
-/

inductive VideoTransitionMode where
  | none : VideoTransitionMode
  | shuffle : VideoTransitionMode
  | fade_in : VideoTransitionMode
  | fade_out : VideoTransitionMode
  | slide_in : VideoTransitionMode
  | slide_out : VideoTransitionMode
deriving DecidableEq

/-- The `.value` string of each enum member (see the section comment for
`none`). -/
def vtmValue : VideoTransitionMode → String
  | VideoTransitionMode.none => "None"
  | VideoTransitionMode.shuffle => "Shuffle"
  | VideoTransitionMode.fade_in => "FadeIn"
  | VideoTransitionMode.fade_out => "FadeOut"
  | VideoTransitionMode.slide_in => "SlideIn"
  | VideoTransitionMode.slide_out => "SlideOut"

/-- The concrete effect applied to one segment. -/
inductive Effect where
  | noEffect : Effect
  | fadeIn : Effect
  | fadeOut : Effect
  | slideIn : Effect
  | slideOut : Effect
deriving DecidableEq

/-- The list `transition_funcs` that `shuffle` mode samples from
(video.py 194-199). -/
def shufflePool : List Effect :=
  [Effect.fadeIn, Effect.fadeOut, Effect.slideIn, Effect.slideOut]

/-- The transition dispatch (video.py 182-201).  `pick` parameterises
`random.choice` for shuffle mode.  A Python-`None` mode raises
`AttributeError` at the first `.value` access; the `if/elif` chain has no
final `else`, so a value matching no branch applies no effect. -/
def applyTransition (mode : Option VideoTransitionMode) (pick : ℕ) :
    Except PyError Effect :=
  match mode with
  | Option.none => Except.error PyError.attributeError
  | Option.some m =>
    if vtmValue m = vtmValue VideoTransitionMode.none then
      Except.ok Effect.noEffect
    else if vtmValue m = vtmValue VideoTransitionMode.fade_in then
      Except.ok Effect.fadeIn
    else if vtmValue m = vtmValue VideoTransitionMode.fade_out then
      Except.ok Effect.fadeOut
    else if vtmValue m = vtmValue VideoTransitionMode.slide_in then
      Except.ok Effect.slideIn
    else if vtmValue m = vtmValue VideoTransitionMode.slide_out then
      Except.ok Effect.slideOut
    else if vtmValue m = vtmValue VideoTransitionMode.shuffle then
      Except.ok (shufflePool.getD (pick % shufflePool.length) Effect.noEffect)
    else
      Except.ok Effect.noEffect

/-- One pass of the packing loop including the transition dispatch: the
`AttributeError` raised on a Python-`None` mode propagates out of
`combine_videos` at the first segment processed. -/
def packPassT (mode : Option VideoTransitionMode) (pick : ℕ)
    (target maxDur : ℚ) : List ℚ → ℚ → Except PyError (List ℚ × ℚ)
  | [], acc => Except.ok ([], acc)
  | d :: rest, acc =>
    let t := if target - acc < d then target - acc
             else if maxDur < d then maxDur else d
    match applyTransition mode pick with
    | Except.error e => Except.error e
    | Except.ok _ =>
      let d' := if maxDur < t then maxDur else t
      match packPassT mode pick target maxDur rest (acc + d') with
      | Except.error e => Except.error e
      | Except.ok r => Except.ok (d' :: r.1, r.2)

/-- The fuelled `while` loop over `packPassT`. -/
def packLoopT (mode : Option VideoTransitionMode) (pick : ℕ)
    (target maxDur : ℚ) (pool : List ℚ) :
    ℕ → ℚ → Except PyError (List ℚ × ℚ × Bool)
  | 0, acc => Except.ok ([], acc, decide (target ≤ acc))
  | fuel + 1, acc =>
    if acc < target then
      match packPassT mode pick target maxDur pool acc with
      | Except.error e => Except.error e
      | Except.ok p =>
        match packLoopT mode pick target maxDur pool fuel p.2 with
        | Except.error e => Except.error e
        | Except.ok r => Except.ok (p.1 ++ r.1, r.2)
    else Except.ok ([], acc, true)

/-! ## Pixel-metric text wrapping (`wrap_text`, video.py 235-290)

```
def wrap_text(text, max_width, font="Arial", fontsize=60):
    font = ImageFont.truetype(font, fontsize)
    def get_text_size(inner_text):
        inner_text = inner_text.strip()
        left, top, right, bottom = font.getbbox(inner_text)
        return right - left, bottom - top
    width, height = get_text_size(text)
    if width <= max_width:
        return text, height
    processed = True
    _wrapped_lines_ = []
    words = text.split(" ")
    _txt_ = ""
    for word in words:
        _before = _txt_
        _txt_ += f"{word} "
        _width, _height = get_text_size(_txt_)
        if _width <= max_width:
            continue
        else:
            if _txt_.strip() == word.strip():
                processed = False
                break
            _wrapped_lines_.append(_before)
            _txt_ = f"{word} "
    _wrapped_lines_.append(_txt_)
    if processed:
        _wrapped_lines_ = [line.strip() for line in _wrapped_lines_]
        result = "\n".join(_wrapped_lines_).strip()
        height = len(_wrapped_lines_) * height
        return result, height
    _wrapped_lines_ = []
    chars = list(text)
    _txt_ = ""
    for word in chars:
        _txt_ += word
        _width, _height = get_text_size(_txt_)
        if _width <= max_width:
            continue
        else:
            _wrapped_lines_.append(_txt_)
            _txt_ = ""
    _wrapped_lines_.append(_txt_)
    result = "\n".join(_wrapped_lines_).strip()
    height = len(_wrapped_lines_) * height
    return result, height
```
The PIL font is abstracted as a pixel-width function `font : String → ℕ`
and a pixel-height function `fontH : String → ℕ`; `get_text_size` strips
its argument before measuring, which is `getTextSize` below.  The model
returns the list of lines (joined with a newline in the source; the final
global `.strip()` can only drop whitespace-only edge lines, which does not
affect any line's rendered width) together with the returned height.
-/

/-- Python `str.strip()` whitespace set. -/
def pyWhitespace (c : Char) : Bool :=
  c == ' ' || c == '\t' || c == '\n' || c == '\r'
    || c == Char.ofNat 11 || c == Char.ofNat 12

/-- Python `str.strip()`: remove trailing then leading whitespace. -/
def pyStrip (s : String) : String :=
  ⟨((s.data.reverse.dropWhile pyWhitespace).reverse).dropWhile pyWhitespace⟩

/-- `get_text_size(inner_text)[0]` (video.py 239-242): width of the
stripped text under the abstract font metric. -/
def getTextSize (font : String → ℕ) (s : String) : ℕ :=
  font (pyStrip s)

/-- Python `text.split(" ")`: split on every single space, keeping empty
pieces (`"".split(" ") == [""]`, `"a  b".split(" ") == ["a", "", "b"]`). -/
def splitSp : List Char → List String
  | [] => [""]
  | c :: rest =>
    if c = ' ' then "" :: splitSp rest
    else
      match splitSp rest with
      | [] => [String.singleton c]
      | l :: ls => (String.singleton c ++ l) :: ls

/-- The word-level wrapping loop (video.py 252-267) followed by the
post-loop `_wrapped_lines_.append(_txt_)`: returns the raw accumulated
lines and the `processed` flag (`false` when the loop broke because a line
consisting of a single word already exceeds the width). -/
def wordWrapGo (font : String → ℕ) (maxW : ℕ) :
    List String → String → List String → List String × Bool
  | [], txt, acc => (acc ++ [txt], true)
  | wrd :: rest, txt, acc =>
    let txt' := txt ++ (wrd ++ " ")
    if getTextSize font txt' ≤ maxW then
      wordWrapGo font maxW rest txt' acc
    else if pyStrip txt' = pyStrip wrd then
      (acc ++ [txt'], false)
    else
      wordWrapGo font maxW rest (wrd ++ " ") (acc ++ [txt])

/-- The character-level fallback loop (video.py 275-286) followed by the
post-loop append: a line is closed *after* the character that pushed it past
`max_width` has been appended to it. -/
def charWrapGo (font : String → ℕ) (maxW : ℕ) :
    List Char → String → List String → List String
  | [], txt, acc => acc ++ [txt]
  | c :: rest, txt, acc =>
    let txt' := txt.push c
    if getTextSize font txt' ≤ maxW then
      charWrapGo font maxW rest txt' acc
    else
      charWrapGo font maxW rest "" (acc ++ [txt'])

/-- `wrap_text`, returning the produced lines and total height: unwrapped
text when it already fits, otherwise the word-wrapped lines (each stripped,
as in the source) when `processed` stayed true, otherwise the
character-wrapped lines.  The height multiplies the line count by the
*original* text's measured height, as the source does. -/
def wrapTextLines (font fontH : String → ℕ) (maxW : ℕ) (text : String) :
    List String × ℕ :=
  if getTextSize font text ≤ maxW then ([text], fontH (pyStrip text))
  else if (wordWrapGo font maxW (splitSp text.data) "" []).2 then
    ((wordWrapGo font maxW (splitSp text.data) "" []).1.map pyStrip,
      (wordWrapGo font maxW (splitSp text.data) "" []).1.length
        * fontH (pyStrip text))
  else
    (charWrapGo font maxW text.data "" [],
      (charWrapGo font maxW text.data "" []).length * fontH (pyStrip text))

/-- A concrete font metric used for witnesses and counterexamples: each
non-whitespace character is one pixel wide.  Ink-box widths are insensitive
to surrounding whitespace, which this metric reflects. -/
def font0 (s : String) : ℕ :=
  s.data.countP (fun c => !pyWhitespace c)

/-! ## Orchestrator state/progress trace (`start`, task.py 210-357)

`start` drives the six stages, writing `sm.state.update_task(task_id, ...)`
updates.  Each update optionally sets `state` and/or `progress`.  The
sequence of updates for a single run is determined by: the `stop_at`
checkpoint, whether the material source is local (which skips the terms
stage), which stage (if any) fails, and `params.video_count`.  A failing
stage helper writes `state=FAILED` itself and `start` writes `FAILED` again
(e.g. task.py 29 and 224).  `generate_final_videos` (task.py 169-202)
starts from `_progress = 50` and after each combine and each render step
adds `50 / params.video_count / 2` and writes a progress-only update; with
`video_count = 0` its loop is empty, it returns empty lists and `start`
writes one `FAILED` (task.py 332-334).  The run of `start` in which the
script is non-empty but contains `"Error: "` writes a single `FAILED`
instead of two; it is covered by the same bounds as the two-write case and
is not modelled separately.
-/

/-- Task states (`app/models/const.py` task-state constants). -/
inductive TState where
  | pending : TState
  | processing : TState
  | complete : TState
  | failed : TState
deriving DecidableEq

/-- One `update_task` call: the optional `state` and `progress` fields it
sets. -/
structure Upd where
  st : Option TState
  pr : Option ℚ
deriving DecidableEq

/-- The `stop_at` checkpoints of `start`. -/
inductive Stage where
  | script : Stage
  | terms : Stage
  | audio : Stage
  | subtitle : Stage
  | materials : Stage
  | video : Stage
deriving DecidableEq

/-- The inputs and collaborator outcomes that determine one run of
`start`. -/
structure Scenario where
  stopAt : Stage
  localSource : Bool
  scriptOk : Bool
  termsOk : Bool
  audioOk : Bool
  materialsOk : Bool
  videoCount : ℕ

/-- The two consecutive `state=FAILED` updates written when a stage helper
fails (one inside the helper, one in `start`). -/
def failUpds : List Upd :=
  [⟨Option.some TState.failed, Option.none⟩,
   ⟨Option.some TState.failed, Option.none⟩]

/-- The progress values written by `generate_final_videos`' loop, starting
after half-step `i`, for `cnt` further half-steps: each half-step `k` writes
`50 + (k+1) * (50 / n / 2)`. -/
def progSeq (n : ℕ) : ℕ → ℕ → List ℚ
  | _, 0 => []
  | i, cnt + 1 => (50 + ((i : ℚ) + 1) * (25 / (n : ℚ))) :: progSeq n (i + 1) cnt

/-- The progress-only updates of `generate_final_videos`: `2 * n` half-steps
(combine and render per output). -/
def finalStageUpds (n : ℕ) : List Upd :=
  (progSeq n 0 (2 * n)).map (fun q => ⟨Option.none, Option.some q⟩)

/-- The full update trace of one `start` run (task.py 210-357). -/
def startUpds (sc : Scenario) : List Upd :=
  [⟨Option.some TState.processing, Option.some 5⟩] ++
  (if sc.scriptOk = false then failUpds
   else
    [⟨Option.some TState.processing, Option.some 10⟩] ++
    (if sc.stopAt = Stage.script then
      [⟨Option.some TState.complete, Option.some 100⟩]
     else
      (if sc.localSource = false ∧ sc.termsOk = false then failUpds
       else
        (if sc.stopAt = Stage.terms then
          [⟨Option.some TState.complete, Option.some 100⟩]
         else
          [⟨Option.some TState.processing, Option.some 20⟩] ++
          (if sc.audioOk = false then failUpds
           else
            [⟨Option.some TState.processing, Option.some 30⟩] ++
            (if sc.stopAt = Stage.audio then
              [⟨Option.some TState.complete, Option.some 100⟩]
             else
              (if sc.stopAt = Stage.subtitle then
                [⟨Option.some TState.complete, Option.some 100⟩]
               else
                [⟨Option.some TState.processing, Option.some 40⟩] ++
                (if sc.materialsOk = false then failUpds
                 else
                  (if sc.stopAt = Stage.materials then
                    [⟨Option.some TState.complete, Option.some 100⟩]
                   else
                    [⟨Option.some TState.processing, Option.some 50⟩] ++
                    finalStageUpds sc.videoCount ++
                    (if sc.videoCount = 0 then
                      [⟨Option.some TState.failed, Option.none⟩]
                     else
                      [⟨Option.some TState.complete, Option.some 100⟩]))))))))))

/-- The task-store fields the claims concern. -/
structure Store where
  st : TState
  pr : ℚ
deriving DecidableEq

/-- A task is created `pending` with progress 0. -/
def initStore : Store := ⟨TState.pending, 0⟩

/-- Applying one `update_task` call: absent fields keep their value. -/
def applyUpd (s : Store) (u : Upd) : Store :=
  ⟨u.st.getD s.st, u.pr.getD s.pr⟩

/-- The store after a list of updates. -/
def runStore (s : Store) (l : List Upd) : Store :=
  l.foldl applyUpd s

/-- The sequence of progress values a run writes. -/
def progressList (sc : Scenario) : List ℚ :=
  (startUpds sc).filterMap Upd.pr

/-- `MonoBounded lo l`: the values of `l` are non-decreasing, start at or
above `lo`, and stay at most 100. -/
def MonoBounded (lo : ℚ) : List ℚ → Prop
  | [] => True
  | x :: xs => lo ≤ x ∧ x ≤ 100 ∧ MonoBounded x xs

end MPT

namespace MPT

/-- Helper: the floor of a rational bounded by a natural number is bounded by
that natural number. -/
lemma floor_le_nat (x : ℚ) (n : ℕ) (h : x ≤ n) : ⌊x⌋ ≤ (n : ℤ) := by
  calc ⌊x⌋ ≤ ⌊(n : ℚ)⌋ := Int.floor_le_floor h
    _ = n := Int.floor_natCast n

/-- A trimmed duration is nonnegative and never pushes the accumulated
duration past the target. -/
lemma trimDur_bounds (target maxDur acc d : ℚ) (hm : 0 ≤ maxDur) (hd : 0 ≤ d)
    (hacc : acc ≤ target) :
    0 ≤ trimDur target maxDur acc d ∧ acc + trimDur target maxDur acc d ≤ target := by
  unfold trimDur trimDur1
  split_ifs <;> constructor <;> linarith

/-- The accumulated duration returned by a pass is the input plus the sum of
the appended durations. -/
lemma packPass_acc (target maxDur : ℚ) :
    ∀ (pool : List ℚ) (acc : ℚ),
      (packPass target maxDur pool acc).2 = acc + (packPass target maxDur pool acc).1.sum := by
  intro pool
  induction pool with
  | nil => intro acc; simp [packPass]
  | cons d rest ih =>
      intro acc
      simp only [packPass, List.sum_cons]
      rw [ih]
      ring

/-- A pass entered at or below the target stays at or below the target. -/
lemma packPass_le (target maxDur : ℚ) (hm : 0 ≤ maxDur) :
    ∀ (pool : List ℚ), (∀ x ∈ pool, 0 ≤ x) → ∀ acc, acc ≤ target →
      (packPass target maxDur pool acc).2 ≤ target := by
  intro pool
  induction pool with
  | nil => intro _ acc hacc; simpa [packPass] using hacc
  | cons d rest ih =>
      intro hpos acc hacc
      have hd : 0 ≤ d := hpos d (List.mem_cons_self d rest)
      have hb := trimDur_bounds target maxDur acc d hm hd hacc
      simp only [packPass]
      exact ih (fun x hx => hpos x (List.mem_cons_of_mem d hx)) _ hb.2

/-- The final accumulated duration of the fuelled loop is the initial one
plus the sum of all appended durations. -/
lemma packLoop_acc (target maxDur : ℚ) (pool : List ℚ) :
    ∀ (fuel : ℕ) (acc : ℚ),
      (packLoop target maxDur pool fuel acc).2.1 =
        acc + (packLoop target maxDur pool fuel acc).1.sum := by
  intro fuel
  induction fuel with
  | zero => intro acc; simp [packLoop]
  | succ n ih =>
      intro acc
      by_cases h : acc < target
      · simp only [packLoop, h, if_pos]
        rw [List.sum_append, ih, packPass_acc]
        ring
      · simp [packLoop, h]

/-- The loop never accumulates past the target. -/
lemma packLoop_le (target maxDur : ℚ) (pool : List ℚ) (hm : 0 ≤ maxDur)
    (hpos : ∀ x ∈ pool, 0 ≤ x) :
    ∀ (fuel : ℕ) (acc : ℚ), acc ≤ target →
      (packLoop target maxDur pool fuel acc).2.1 ≤ target := by
  intro fuel
  induction fuel with
  | zero => intro acc hacc; simpa [packLoop] using hacc
  | succ n ih =>
      intro acc hacc
      by_cases h : acc < target
      · simp only [packLoop, h, if_pos]
        exact ih _ (packPass_le target maxDur hm pool hpos acc hacc)
      · simpa [packLoop, h] using hacc

/-- If the loop reports termination, the accumulated duration has reached the
target. -/
lemma packLoop_exit (target maxDur : ℚ) (pool : List ℚ) :
    ∀ (fuel : ℕ) (acc : ℚ),
      (packLoop target maxDur pool fuel acc).2.2 = true →
      target ≤ (packLoop target maxDur pool fuel acc).2.1 := by
  intro fuel
  induction fuel with
  | zero =>
      intro acc h
      simp only [packLoop, decide_eq_true_eq] at h
      simpa [packLoop] using h
  | succ n ih =>
      intro acc
      by_cases h : acc < target
      · simp only [packLoop, h, if_pos]
        exact ih _
      · intro _
        simp only [packLoop, h, if_neg, not_false_iff]
        linarith [not_lt.mp h]

/-- A pass entered exactly at the target appends only zero durations. -/
lemma packPass_at_target (target maxDur : ℚ) (hm : 0 ≤ maxDur) :
    ∀ (pool : List ℚ), (∀ x ∈ pool, 0 ≤ x) →
      (packPass target maxDur pool target).1 = List.replicate pool.length 0 := by
  intro pool
  induction pool with
  | nil => simp [packPass]
  | cons d rest ih =>
      intro hpos
      have hd : 0 ≤ d := hpos d (List.mem_cons_self d rest)
      have hz : trimDur target maxDur target d = 0 := by
        unfold trimDur trimDur1
        split_ifs <;> linarith
      simp only [packPass, hz, add_zero, List.length_cons, List.replicate_succ,
        List.cons.injEq, true_and]
      exact ih (fun x hx => hpos x (List.mem_cons_of_mem d hx))

/-- Appending a space does not change the result of `str.strip()`. -/
lemma pyStrip_append_space (s : String) : pyStrip (s ++ " ") = pyStrip s := by
  unfold pyStrip
  have h : (s ++ " ").data = s.data ++ [' '] := by
    rw [String.data_append]
  rw [h]
  have h2 : (s.data ++ [' ']).reverse = ' ' :: s.data.reverse := by
    simp
  rw [h2]
  have h3 : List.dropWhile pyWhitespace (' ' :: s.data.reverse)
      = List.dropWhile pyWhitespace s.data.reverse := by
    rw [List.dropWhile_cons]
    norm_num [pyWhitespace]
  rw [h3]

/-- If the underlying font width is strip-invariant and every word of the
text (with its trailing space) fits within `max_width`, then the word-level
wrapping loop never breaks into the character fallback and every line it
accumulates fits within `max_width`. -/
lemma wordWrapGo_fits (font : String → ℕ) (maxW : ℕ)
    (hstrip : ∀ s, font (pyStrip s) = font s) (h0 : font "" ≤ maxW) :
    ∀ (words : List String) (txt : String) (acc : List String),
      (∀ w ∈ words, font (w ++ " ") ≤ maxW) →
      (txt = "" ∨ font txt ≤ maxW) →
      (∀ l ∈ acc, font l ≤ maxW) →
      (wordWrapGo font maxW words txt acc).2 = true
      ∧ ∀ l ∈ (wordWrapGo font maxW words txt acc).1, font l ≤ maxW := by
  intro words
  induction words with
  | nil =>
      intro txt acc _ htxt hacc
      refine ⟨rfl, ?_⟩
      intro l hl
      simp only [wordWrapGo, List.mem_append, List.mem_singleton] at hl
      rcases hl with hl | rfl
      · exact hacc l hl
      · rcases htxt with rfl | h
        · exact h0
        · exact h
  | cons wrd rest ih =>
      intro txt acc hwords htxt hacc
      have hw : font (wrd ++ " ") ≤ maxW := hwords wrd (List.mem_cons_self _ _)
      have hrest : ∀ w ∈ rest, font (w ++ " ") ≤ maxW :=
        fun w hw' => hwords w (List.mem_cons_of_mem _ hw')
      simp only [wordWrapGo]
      by_cases hfit : getTextSize font (txt ++ (wrd ++ " ")) ≤ maxW
      · rw [if_pos hfit]
        refine ih _ _ hrest (Or.inr ?_) hacc
        have := hfit
        simp only [getTextSize, hstrip] at this
        exact this
      · have hne : ¬ (pyStrip (txt ++ (wrd ++ " ")) = pyStrip wrd) := by
          intro heq
          apply hfit
          show font (pyStrip (txt ++ (wrd ++ " "))) ≤ maxW
          rw [heq, hstrip wrd]
          have hww : font wrd = font (wrd ++ " ") := by
            rw [← hstrip (wrd ++ " "), pyStrip_append_space, hstrip]
          rw [hww]
          exact hw
        rw [if_neg hfit, if_neg hne]
        refine ih _ _ hrest (Or.inr hw) ?_
        intro l hl
        rcases List.mem_append.mp hl with hl | hl
        · exact hacc l hl
        · rcases List.mem_singleton.mp hl with rfl
          rcases htxt with rfl | h
          · exact h0
          · exact h

/-- Dropping a whitespace run does not change the count of non-whitespace
characters. -/
lemma countP_dropWhile_ws (l : List Char) :
    (l.dropWhile pyWhitespace).countP (fun c => !pyWhitespace c)
      = l.countP (fun c => !pyWhitespace c) := by
  induction l with
  | nil => rfl
  | cons a l ih =>
      rw [List.dropWhile_cons]
      by_cases h : pyWhitespace a
      · rw [if_pos h, ih, List.countP_cons]
        simp [h]
      · rw [if_neg h]

/-- The concrete width metric `font0` is strip-invariant. -/
lemma font0_pyStrip (s : String) : font0 (pyStrip s) = font0 s := by
  show (((s.data.reverse.dropWhile pyWhitespace).reverse).dropWhile
      pyWhitespace).countP (fun c => !pyWhitespace c)
    = s.data.countP (fun c => !pyWhitespace c)
  rw [countP_dropWhile_ws, List.countP_reverse, countP_dropWhile_ws,
    List.countP_reverse]

/-- The progress values of the final stage are non-decreasing and bounded by
100, continuing into any tail for which this already holds from the last
written value. -/
lemma progSeq_monoBounded (n : ℕ) (hn : 0 < n) (rest : List ℚ) :
    ∀ (cnt i : ℕ), i + cnt ≤ 2 * n →
      MonoBounded (50 + ((i : ℚ) + (cnt : ℚ)) * (25 / (n : ℚ))) rest →
      MonoBounded (50 + (i : ℚ) * (25 / (n : ℚ))) (progSeq n i cnt ++ rest) := by
  intro cnt
  induction cnt with
  | zero =>
      intro i _ hrest
      simpa [progSeq] using hrest
  | succ c ih =>
      intro i hi hrest
      have hnQ : (0 : ℚ) < n := by exact_mod_cast hn
      have hδ : (0 : ℚ) ≤ 25 / n := by positivity
      simp only [progSeq, List.cons_append]
      refine ⟨?_, ?_, ?_⟩
      · have h1 : (i : ℚ) ≤ (i : ℚ) + 1 := by linarith
        have := mul_le_mul_of_nonneg_right h1 hδ
        linarith
      · have h1 : (i : ℚ) + 1 ≤ 2 * n := by
          have : (i + 1 : ℕ) ≤ 2 * n := by omega
          exact_mod_cast this
        have h2 := mul_le_mul_of_nonneg_right h1 hδ
        have h3 : (2 * (n : ℚ)) * (25 / n) = 50 := by
          field_simp
          ring
        linarith
      · have hrest' :
            MonoBounded (50 + (((i + 1 : ℕ) : ℚ) + (c : ℚ)) * (25 / (n : ℚ))) rest := by
          convert hrest using 3
          push_cast
          ring
        have := ih (i + 1) (by omega) hrest'
        simpa using this

/-- Any prefix of a run whose updates only ever write progress values at
most `bound` keeps the stored progress at most `bound`. -/
lemma runStore_pr_le (bound : ℚ) :
    ∀ (l : List Upd) (s : Store), s.pr ≤ bound →
      (∀ u ∈ l, ∀ q, u.pr = Option.some q → q ≤ bound) →
      ∀ k, (runStore s (l.take k)).pr ≤ bound := by
  intro l
  induction l with
  | nil =>
      intro s hs _ k
      simpa [runStore] using hs
  | cons u l ih =>
      intro s hs hl k
      cases k with
      | zero => simpa [runStore] using hs
      | succ k =>
          show (runStore (applyUpd s u) (l.take k)).pr ≤ bound
          refine ih (applyUpd s u) ?_
            (fun v hv => hl v (List.mem_cons_of_mem _ hv)) k
          show (u.pr.getD s.pr) ≤ bound
          cases hu : u.pr with
          | none => simpa using hs
          | some q => simpa using hl u (List.mem_cons_self _ _) q hu

/-- Any prefix of a run containing no `FAILED` write never shows a failed
store state. -/
lemma runStore_st_ne_failed :
    ∀ (l : List Upd) (s : Store), s.st ≠ TState.failed →
      (∀ u ∈ l, u.st ≠ Option.some TState.failed) →
      ∀ k, (runStore s (l.take k)).st ≠ TState.failed := by
  intro l
  induction l with
  | nil =>
      intro s hs _ k
      simpa [runStore] using hs
  | cons u l ih =>
      intro s hs hl k
      cases k with
      | zero => simpa [runStore] using hs
      | succ k =>
          show (runStore (applyUpd s u) (l.take k)).st ≠ TState.failed
          refine ih (applyUpd s u) ?_
            (fun v hv => hl v (List.mem_cons_of_mem _ hv)) k
          show (u.st.getD s.st) ≠ TState.failed
          cases hu : u.st with
          | none => simpa using hs
          | some t =>
              have := hl u (List.mem_cons_self _ _)
              rw [hu] at this
              simpa using fun h => this (by rw [h])

/-- In any trace whose progress writes stay at most 50, the stored progress
stays below 100 at every prefix. -/
lemma store_pr_lt_100 (l : List Upd) (k : ℕ)
    (h50 : ∀ u ∈ l, ∀ q, u.pr = Option.some q → q ≤ 50) :
    (runStore initStore (l.take k)).pr < 100 := by
  have := runStore_pr_le 50 l initStore (by norm_num [initStore]) h50 k
  linarith

/-- The progress values written by the final stage. -/
lemma filterMap_finalStageUpds (n : ℕ) :
    (finalStageUpds n).filterMap Upd.pr = progSeq n 0 (2 * n) := by
  unfold finalStageUpds
  rw [List.filterMap_map]
  have : (Upd.pr ∘ fun q => (⟨Option.none, Option.some q⟩ : Upd))
      = Option.some := by
    funext q
    rfl
  rw [this, List.filterMap_some]

/-- The final-stage updates never write a state. -/
lemma finalStageUpds_st (n : ℕ) :
    ∀ u ∈ finalStageUpds n, u.st ≠ Option.some TState.failed := by
  intro u hu
  unfold finalStageUpds at hu
  obtain ⟨q, _, rfl⟩ := List.mem_map.mp hu
  simp

/-! ## Theorems -/

/-- Claim C9, counterexample: with output height `H = 1920`, a subtitle block
of height `h = 1905` and `custom_position = 70`, the code clamps the vertical
position to `10`, which is not within `[10, H - h - 10] = [10, 5]`: the
claimed interval is empty and its upper bound is violated. -/
theorem C9_counterexample :
    customY 1920 1905 70 = 10 ∧ ¬ (customY 1920 1905 70 ≤ 1920 - 1905 - 10) := by
  constructor
  · norm_num [customY]
  · norm_num [customY]

/-- Claim C9 (corrected): whenever the subtitle block leaves room for the two
10-pixel margins (`h + 20 ≤ H`), the custom vertical position computed by
`create_text_clip` lies within `[10, H - h - 10]`.  When `h + 20 > H` the
claimed interval is empty and the clamp returns `10`, exceeding the upper
bound. -/
theorem C9_custom_position_clamped (H h pos : ℚ) (hfit : h + 20 ≤ H) :
    10 ≤ customY H h pos ∧ customY H h pos ≤ H - h - 10 := by
  unfold customY
  constructor
  · exact le_max_left _ _
  · have hub : H - h - 10 ≥ 10 := by linarith
    have h1 : min ((H - h) * (pos / 100)) (H - h - 10) ≤ H - h - 10 :=
      min_le_right _ _
    simp only [max_le_iff]
    exact ⟨hub, h1⟩

/-- Witness for C9_custom_position_clamped at `H = 1920`, `h = 100`,
`pos = 70`. -/
theorem C9_custom_position_clamped_witness :
    10 ≤ customY 1920 100 70 ∧ customY 1920 100 70 ≤ 1920 - 100 - 10 :=
  C9_custom_position_clamped 1920 100 70 (by norm_num)

/-- Claim C6: the normalizer leaves a segment already at the target
resolution unchanged; for any other segment it outputs exactly the target
resolution `(W, H)` — directly resized when the aspect ratios agree, and
otherwise scaled by `W/w` (when `clip_ratio > target_ratio`) or `H/h`
(otherwise), the scaled content fitting inside the opaque black `(W, H)`
background it is centered over. -/
theorem C6_normalizer_output_resolution (W H w h : ℕ)
    (hw : 0 < w) (hh : 0 < h) (hW : 0 < W) (hH : 0 < H) :
    normOutputSize W H w h = (W, H)
    ∧ ((w, h) = (W, H) → normalizeClip W H w h = NormStep.keep)
    ∧ ((w : ℚ) / h ≠ (W : ℚ) / H →
        normalizeClip W H w h =
          (if (W : ℚ) / H < (w : ℚ) / h then
            NormStep.letterbox ⌊(w : ℚ) * ((W : ℚ) / w)⌋ ⌊(h : ℚ) * ((W : ℚ) / w)⌋
          else
            NormStep.letterbox ⌊(w : ℚ) * ((H : ℚ) / h)⌋ ⌊(h : ℚ) * ((H : ℚ) / h)⌋))
    ∧ (∀ a b : ℤ, normalizeClip W H w h = NormStep.letterbox a b →
        a ≤ W ∧ b ≤ H) := by
  have hwQ : (0 : ℚ) < w := by exact_mod_cast hw
  have hhQ : (0 : ℚ) < h := by exact_mod_cast hh
  have hWQ : (0 : ℚ) < W := by exact_mod_cast hW
  have hHQ : (0 : ℚ) < H := by exact_mod_cast hH
  refine ⟨?_, ?_, ?_, ?_⟩
  · -- output resolution is always (W, H); in the keep case because the
    -- native resolution already equals the target
    unfold normOutputSize normalizeClip
    by_cases hne : w ≠ W ∨ h ≠ H
    · simp only [hne, if_pos]
      by_cases hr : (w : ℚ) / h = (W : ℚ) / H
      · simp [hr]
      · simp [hr]
    · push_neg at hne
      simp [hne.1, hne.2]
  · intro hp
    rw [Prod.mk.injEq] at hp
    obtain ⟨hwW, hhH⟩ := hp
    unfold normalizeClip
    simp [hwW, hhH]
  · intro hr
    have hne : w ≠ W ∨ h ≠ H := by
      by_contra hc
      push_neg at hc
      exact hr (by rw [hc.1, hc.2])
    unfold normalizeClip
    simp only [hne, if_true, hr, if_false]
    by_cases hgt : (W : ℚ) / H < (w : ℚ) / h
    · simp [hgt]
    · simp [hgt]
  · intro a b hab
    unfold normalizeClip at hab
    by_cases hne : w ≠ W ∨ h ≠ H
    · simp only [hne, if_pos] at hab
      by_cases hr : (w : ℚ) / h = (W : ℚ) / H
      · simp [hr] at hab
      · simp only [hr, if_false] at hab
        by_cases hgt : (W : ℚ) / H < (w : ℚ) / h
        · simp only [hgt, if_pos, NormStep.letterbox.injEq] at hab
          obtain ⟨ha, hb⟩ := hab
          have hlt : (W : ℚ) * h < w * H := by
            rw [div_lt_div_iff hHQ hhQ] at hgt
            linarith
          constructor
          · rw [← ha]
            refine floor_le_nat _ _ ?_
            rw [← mul_div_assoc, div_le_iff hwQ]
            nlinarith
          · rw [← hb]
            refine floor_le_nat _ _ ?_
            rw [← mul_div_assoc, div_le_iff hwQ]
            nlinarith
        · simp only [hgt, if_neg, not_false_iff, NormStep.letterbox.injEq] at hab
          obtain ⟨ha, hb⟩ := hab
          push_neg at hgt
          have hle : (w : ℚ) * H ≤ W * h := by
            rw [div_le_div_iff hhQ hHQ] at hgt
            linarith
          constructor
          · rw [← ha]
            refine floor_le_nat _ _ ?_
            rw [← mul_div_assoc, div_le_iff hhQ]
            nlinarith
          · rw [← hb]
            refine floor_le_nat _ _ ?_
            rw [← mul_div_assoc, div_le_iff hhQ]
            nlinarith
    · simp [hne] at hab

/-- Witness for C6_normalizer_output_resolution at a 640×480 clip normalized
to 1080×1920. -/
theorem C6_normalizer_output_resolution_witness :
    normOutputSize 1080 1920 640 480 = (1080, 1920)
    ∧ ((640, 480) = (1080, 1920) → normalizeClip 1080 1920 640 480 = NormStep.keep)
    ∧ ((640 : ℚ) / 480 ≠ (1080 : ℚ) / 1920 →
        normalizeClip 1080 1920 640 480 =
          (if (1080 : ℚ) / 1920 < (640 : ℚ) / 480 then
            NormStep.letterbox ⌊(640 : ℚ) * ((1080 : ℚ) / 640)⌋
              ⌊(480 : ℚ) * ((1080 : ℚ) / 640)⌋
          else
            NormStep.letterbox ⌊(640 : ℚ) * ((1920 : ℚ) / 480)⌋
              ⌊(480 : ℚ) * ((1920 : ℚ) / 480)⌋))
    ∧ (∀ a b : ℤ, normalizeClip 1080 1920 640 480 = NormStep.letterbox a b →
        a ≤ 1080 ∧ b ≤ 1920) :=
  C6_normalizer_output_resolution 1080 1920 640 480 (by norm_num) (by norm_num)
    (by norm_num) (by norm_num)

/-- Claim C7, counterexample: a 10-second background track, bgm volume 1 and
a 20-second video.  In the pipeline the code builds (volume → fade-out →
loop) the gain at `t = 8.5` s of the full-length track is `1/2`: the track
is already fading although 11.5 seconds remain.  Under the claimed pipeline
(volume → loop → one fade-out at the very end) the gain there is `1`. -/
theorem C7_counterexample :
    (bgmPipeline 1 20 ⟨10, fun _ => 1⟩).gain (17/2) = 1/2
    ∧ (bgmPipelineClaimed 1 20 ⟨10, fun _ => 1⟩).gain (17/2) = 1
    ∧ ((1 : ℚ)/2) ≠ 1 := by
  refine ⟨?_, ?_, by norm_num⟩
  · show (1 : ℚ) * 1 * min 1 (max 0 ((10 - tmod (17/2) 10) / 3)) = 1/2
    rw [show tmod (17/2) 10 = 17/2 by norm_num [tmod]]
    norm_num
  · show (1 : ℚ) * 1 * min 1 (max 0 ((20 - 17/2) / 3)) = 1
    norm_num

/-- Claim C7 (corrected): `generate_video` volume-scales the background
track by `bgm_volume`, applies the 3-second fade-out to the end of the
*single* background clip, and only then loops it to the final video's
duration.  The resulting full-length track therefore has duration equal to
the video's and carries a fade-out at the end of *each* repetition of the
source clip (gain at `t` is the faded gain at `t mod clip-duration`), not a
single fade-out at the very end; it is then mixed additively with the voice
track. -/
theorem C7_bgm_fade_per_repetition (v vidDur : ℚ) (a : AClip) :
    (bgmPipeline v vidDur a).dur = vidDur
    ∧ ∀ t, (bgmPipeline v vidDur a).gain t =
        v * a.gain (tmod t a.dur) * min 1 (max 0 ((a.dur - tmod t a.dur) / 3)) := by
  constructor
  · rfl
  · intro t
    rfl

/-- Claim C8, counterexample: with `bgm_type = "random"`, no explicit
`bgm_file` and an empty songs directory, `random.choice([])` raises
`IndexError` inside `get_bgm_file`, which `generate_video` calls *outside*
its try/except — the exception escapes `generate_video` instead of degrading
to voice-only audio. -/
theorem C8_counterexample :
    bgmSection "random" "" (fun _ => false) [] 0 (fun _ => true)
      = Except.error PyError.indexError := by
  rfl

/-- Claim C8 (corrected): every failure *inside* the try/except (decoding or
mixing the selected track) is caught and `generate_video` proceeds with
voice-only audio; in particular, whenever the songs directory is non-empty
the bgm section never raises, and with a failing decoder it always returns
the voice-only mix.  However the track-selection step `get_bgm_file` runs
before the try/except: with `bgm_type = "random"` and an empty songs
directory `random.choice` raises an uncaught `IndexError`. -/
theorem C8_bgm_failures_caught (bgmType bgmFile : String)
    (exists_ : String → Bool) (songFiles : List String) (pick : ℕ)
    (decodeOk : String → Bool) (hs : songFiles ≠ []) :
    (∃ r, bgmSection bgmType bgmFile exists_ songFiles pick decodeOk
        = Except.ok r)
    ∧ bgmSection bgmType bgmFile exists_ songFiles pick (fun _ => false)
        = Except.ok AudioOutcome.voiceOnly := by
  have hsel : ∃ s, get_bgm_file bgmType bgmFile exists_ songFiles pick
      = Except.ok s := by
    unfold get_bgm_file
    split
    · exact ⟨_, rfl⟩
    · split
      · exact ⟨_, rfl⟩
      · split
        · cases songFiles with
          | nil => exact absurd rfl hs
          | cons f fs => exact ⟨_, rfl⟩
        · exact ⟨_, rfl⟩
  obtain ⟨s, hsel⟩ := hsel
  constructor
  · unfold bgmSection
    rw [hsel]
    show (∃ r, (if s = "" then Except.ok AudioOutcome.voiceOnly
      else if decodeOk s = true then Except.ok (AudioOutcome.mixed s)
      else Except.ok AudioOutcome.voiceOnly) = Except.ok r)
    split_ifs with h5 h6
    · exact ⟨_, rfl⟩
    · exact ⟨_, rfl⟩
    · exact ⟨_, rfl⟩
  · unfold bgmSection
    rw [hsel]
    show (if s = "" then Except.ok AudioOutcome.voiceOnly
      else if false = true then Except.ok (AudioOutcome.mixed s)
      else Except.ok AudioOutcome.voiceOnly) = Except.ok AudioOutcome.voiceOnly
    split_ifs with h5 h6
    · rfl
    · exact absurd h6 (by simp)
    · rfl

/-- Witness for C8_bgm_failures_caught: one song available, bgm type
"random". -/
theorem C8_bgm_failures_caught_witness :
    (∃ r, bgmSection "random" "" (fun _ => false) ["a.mp3"] 0 (fun _ => true)
        = Except.ok r)
    ∧ bgmSection "random" "" (fun _ => false) ["a.mp3"] 0 (fun _ => false)
        = Except.ok AudioOutcome.voiceOnly :=
  C8_bgm_failures_caught "random" "" (fun _ => false) ["a.mp3"] 0
    (fun _ => true) (by simp)

/-- Claim C4, counterexample: a task with `video_count = 2` and
`video_concat_mode = sequential`.  The material-acquisition stage forwards
the *uncoerced* `sequential` mode to the material provider, while the
final-video stage uses `random` — so the coercion does not happen before
stage 1 and material acquisition does not observe the coerced value. -/
theorem C4_counterexample :
    materialsConcatMode ⟨VideoConcatMode.sequential, 2⟩
        = VideoConcatMode.sequential
    ∧ effectiveConcatMode ⟨VideoConcatMode.sequential, 2⟩
        = VideoConcatMode.random
    ∧ VideoConcatMode.sequential ≠ VideoConcatMode.random := by
  refine ⟨rfl, rfl, by decide⟩

/-- Claim C4 (corrected): when the requested output count is greater than 1
the concat mode is coerced to `random` exactly once per task — as a local
value computed at the start of `generate_final_videos`, before its
per-output loop, so every `combine_videos` call of the task observes the
same coerced value.  The coercion happens at stage 6, not before stage 1:
`params` is never mutated, and material acquisition (stage 5) observes the
original, uncoerced concat mode. -/
theorem C4_concat_mode_coercion (p : ConcatParams) (hc : 1 < p.video_count) :
    effectiveConcatMode p = VideoConcatMode.random
    ∧ combineCallConcatModes p =
        List.replicate p.video_count VideoConcatMode.random
    ∧ materialsConcatMode p = p.video_concat_mode := by
  have h1 : p.video_count ≠ 1 := by omega
  have he : effectiveConcatMode p = VideoConcatMode.random := by
    simp [effectiveConcatMode, h1]
  refine ⟨he, ?_, rfl⟩
  simp [combineCallConcatModes, he, List.map_const']

/-- Witness for C4_concat_mode_coercion at `video_count = 2`,
`video_concat_mode = sequential`. -/
theorem C4_concat_mode_coercion_witness :
    effectiveConcatMode ⟨VideoConcatMode.sequential, 2⟩ = VideoConcatMode.random
    ∧ combineCallConcatModes ⟨VideoConcatMode.sequential, 2⟩ =
        List.replicate 2 VideoConcatMode.random
    ∧ materialsConcatMode ⟨VideoConcatMode.sequential, 2⟩
        = VideoConcatMode.sequential :=
  C4_concat_mode_coercion ⟨VideoConcatMode.sequential, 2⟩ (by norm_num)

/-- Claim C1, counterexample: pool of two 5-second segments, target duration
3 s.  The first segment is trimmed to the remaining 3 s, but packing does
not stop there: the inner `for` loop finishes its pass, appending the second
segment trimmed to the now-zero remaining duration.  The loop output is
`[3, 0]` — the trimmed 3-second segment is not the final segment appended. -/
theorem C1_counterexample :
    packLoop 3 5 [5, 5] 2 0 = ([3, 0], 3, true) ∧ (0 : ℚ) ≠ 3 := by
  constructor
  · norm_num [packLoop, packPass, trimDur, trimDur1]
  · norm_num

/-- Claim C1 (corrected): for a non-empty pool of nonnegative segment
durations and a positive target, whenever the packing loop exits, the total
appended duration equals the target exactly.  When the remaining needed
duration is less than the current segment's duration, the segment is indeed
trimmed to exactly the remaining duration — but packing does not stop at
that segment: the inner `for` loop continues over the rest of the pool,
appending one zero-duration segment per remaining pool entry, so the
trimmed segment is only the last segment with positive duration. -/
theorem C1_packing_totals_target (target maxDur : ℚ) (pool tail : List ℚ)
    (fuel : ℕ) (acc d : ℚ)
    (hm : 0 ≤ maxDur) (hpos : ∀ x ∈ pool, 0 ≤ x) (ht : 0 ≤ target)
    (hterm : (packLoop target maxDur pool fuel 0).2.2 = true)
    (htail : ∀ x ∈ tail, 0 ≤ x)
    (hrem : target - acc < d) (hdm : d ≤ maxDur) :
    (packLoop target maxDur pool fuel 0).1.sum = target
    ∧ trimDur target maxDur acc d = target - acc
    ∧ (packPass target maxDur tail target).1 = List.replicate tail.length 0 := by
  refine ⟨?_, ?_, packPass_at_target target maxDur hm tail htail⟩
  · have h1 := packLoop_exit target maxDur pool fuel 0 hterm
    have h2 := packLoop_le target maxDur pool hm hpos fuel 0 ht
    have h3 := packLoop_acc target maxDur pool fuel 0
    have : (packLoop target maxDur pool fuel 0).2.1 = target := le_antisymm h2 h1
    rw [this] at h3
    linarith
  · have hnc : ¬ maxDur < target - acc := by linarith
    simp only [trimDur, trimDur1, if_pos hrem, hnc, if_false]

/-- Witness for C1_packing_totals_target: pool `[5, 5]`, target 3, fuel 2,
a pass entered at accumulated duration 1 facing a 4-second segment, and a
zero-appending tail pass over `[5]`. -/
theorem C1_packing_totals_target_witness :
    (packLoop 3 5 [5, 5] 2 0).1.sum = 3
    ∧ trimDur 3 5 1 4 = 3 - 1
    ∧ (packPass 3 5 [5] 3).1 = List.replicate [(5 : ℚ)].length 0 :=
  C1_packing_totals_target 3 5 [5, 5] [5] 2 1 4 (by norm_num)
    (by intro x hx; fin_cases hx <;> norm_num) (by norm_num)
    (by norm_num [packLoop, packPass, trimDur, trimDur1])
    (by intro x hx; fin_cases hx <;> norm_num) (by norm_num)
    (by norm_num)

/-- Claim C2 (code bug): when the segment pool is empty and the target audio
duration is positive, the `while video_duration < audio_duration` loop of
`combine_videos` never terminates: each pass over the empty pool appends
nothing and leaves the accumulated duration at 0, so for every fuel bound
the loop has not exited, no error is raised, and no task-state update (in
particular no `Failed`) is ever issued — `combine_videos` contains no state
update at all.  The spec requires the packer to fail fast with a fatal error
instead. -/
theorem C2_empty_pool_never_terminates (target maxDur : ℚ) (ht : 0 < target) :
    ∀ fuel : ℕ, packLoop target maxDur [] fuel 0 = ([], 0, false) := by
  intro fuel
  induction fuel with
  | zero =>
      simp only [packLoop]
      have : ¬ target ≤ 0 := not_le.mpr ht
      simp [this]
  | succ n ih =>
      have h0 : (0 : ℚ) < target := ht
      simp only [packLoop, h0, if_pos, packPass]
      rw [ih]
      simp

/-- Witness for C2_empty_pool_never_terminates at target 10 and fuel 7. -/
theorem C2_empty_pool_never_terminates_witness :
    packLoop 10 5 [] 7 0 = ([], 0, false) :=
  C2_empty_pool_never_terminates 10 5 (by norm_num) 7

/-- Claim C10: calling `combine_videos` with `video_transition_mode` equal to
Python `None` — the declared default of the parameter and of
`VideoParams.video_transition_mode` — raises `AttributeError` (accessing
`.value` on `None`) at the first segment of any non-empty pool with positive
target duration; and the no-transition branch is taken exactly when the mode
is the explicit `VideoTransitionMode.none` enum member. -/
theorem C10_none_mode_raises (pool : List ℚ) (target maxDur : ℚ)
    (fuel pick k : ℕ) (mode : Option VideoTransitionMode)
    (hpool : pool ≠ []) (ht : 0 < target) (hf : 0 < fuel) :
    packLoopT Option.none pick target maxDur pool fuel 0
      = Except.error PyError.attributeError
    ∧ (applyTransition mode k = Except.ok Effect.noEffect
        ↔ mode = Option.some VideoTransitionMode.none) := by
  constructor
  · obtain ⟨n, rfl⟩ : ∃ n, fuel = n + 1 := ⟨fuel - 1, by omega⟩
    obtain ⟨d, rest, rfl⟩ : ∃ d rest, pool = d :: rest := by
      cases pool with
      | nil => exact absurd rfl hpool
      | cons d rest => exact ⟨d, rest, rfl⟩
    have h0 : (0 : ℚ) < target := ht
    simp only [packLoopT, h0, if_pos, packPassT, applyTransition]
  · cases mode with
    | none => simp [applyTransition]
    | some m =>
        cases m with
        | none => simp [applyTransition, vtmValue]
        | shuffle =>
            have h4 : k % 4 = 0 ∨ k % 4 = 1 ∨ k % 4 = 2 ∨ k % 4 = 3 := by omega
            rcases h4 with h | h | h | h <;>
              simp [applyTransition, vtmValue, shufflePool, h]
        | fade_in => simp [applyTransition, vtmValue]
        | fade_out => simp [applyTransition, vtmValue]
        | slide_in => simp [applyTransition, vtmValue]
        | slide_out => simp [applyTransition, vtmValue]

/-- Witness for C10_none_mode_raises: pool `[5]`, target 1, fuel 1,
comparing against the explicit `none` enum member. -/
theorem C10_none_mode_raises_witness :
    packLoopT Option.none 0 1 5 [5] 1 0 = Except.error PyError.attributeError
    ∧ (applyTransition (Option.some VideoTransitionMode.none) 0
          = Except.ok Effect.noEffect
        ↔ Option.some VideoTransitionMode.none
          = Option.some VideoTransitionMode.none) :=
  C10_none_mode_raises [5] 1 5 1 0 0 (Option.some VideoTransitionMode.none)
    (by simp) (by norm_num) (by norm_num)

/-- Claim C3, counterexample: the single word `"abcdefgh"` (width 8 under
the one-pixel-per-character metric `font0`) with `max_width = 5`.
`wrap_text` does fall back to character-level wrapping, but the fallback
closes each line only *after* the character that pushed it past the limit:
the produced line `"abcdef"` has rendered width 6 > 5. -/
theorem C3_counterexample :
    wrapTextLines font0 (fun _ => 1) 5 "abcdefgh" = (["abcdef", "gh"], 2)
    ∧ ¬ (getTextSize font0 "abcdef" ≤ 5) := by
  constructor
  · decide
  · decide

/-- Claim C3 (corrected): under a strip-invariant font-width metric (PIL ink
boxes are insensitive to surrounding whitespace), *if every word of the text
(with its trailing space) fits within `max_width`*, then `wrap_text` stays
in word-level wrapping and every emitted line has rendered width ≤
`max_width`.  Without that hypothesis the guarantee fails: an overlong word
that is not the first word of the text is emitted on an overlong line
without triggering the fallback, and the character-level fallback (reachable
only when the first accumulated line consists of a single overlong word)
emits lines that exceed `max_width` by the final character that crossed the
limit. -/
theorem C3_wrap_lines_fit (font fontH : String → ℕ) (maxW : ℕ) (text : String)
    (hstrip : ∀ s, font (pyStrip s) = font s)
    (h0 : font "" ≤ maxW)
    (hwords : ∀ w ∈ splitSp text.data, font (w ++ " ") ≤ maxW) :
    ∀ l ∈ (wrapTextLines font fontH maxW text).1, getTextSize font l ≤ maxW := by
  intro l hl
  unfold wrapTextLines at hl
  by_cases hfit : getTextSize font text ≤ maxW
  · rw [if_pos hfit] at hl
    simp only [List.mem_singleton] at hl
    subst hl
    exact hfit
  · rw [if_neg hfit] at hl
    have hww := wordWrapGo_fits font maxW hstrip h0 (splitSp text.data) "" []
      hwords (Or.inl rfl) (by intro x hx; simp at hx)
    rw [if_pos hww.1] at hl
    simp only [List.mem_map] at hl
    obtain ⟨l₀, hl₀, rfl⟩ := hl
    calc getTextSize font (pyStrip l₀) = font (pyStrip (pyStrip l₀)) := rfl
      _ = font (pyStrip l₀) := hstrip _
      _ = font l₀ := hstrip _
      _ ≤ maxW := hww.2 l₀ hl₀

/-- Witness for C3_wrap_lines_fit: text `"ab cd ef"`, `max_width 5`,
one-pixel-per-character metric: all words fit, and the wrapped line
`"ab cd"` fits. -/
theorem C3_wrap_lines_fit_witness :
    getTextSize font0 "ab cd" ≤ 5 :=
  C3_wrap_lines_fit font0 (fun _ => 1) 5 "ab cd ef" font0_pyStrip
    (by decide) (by decide) "ab cd" (by decide)

/-- Claim C5, counterexample: a fully successful run with `video_count = 1`,
non-local source, `stop_at = "video"`.  After eight updates — the last one
being the final per-output progress write of `generate_final_videos` — the
task store shows progress exactly 100 with state still `processing`, not
`complete`: progress reaches 100 one update before the state becomes
complete. -/
theorem C5_counterexample :
    runStore initStore
        ((startUpds ⟨Stage.video, false, true, true, true, true, 1⟩).take 8)
      = ⟨TState.processing, 100⟩
    ∧ TState.processing ≠ TState.complete := by
  constructor
  · norm_num [startUpds, finalStageUpds, progSeq, runStore, applyUpd,
      initStore, failUpds, List.take, List.foldl]
  · simp

/-- Claim C5 (corrected): over any single run of `start`, the sequence of
progress values written to the task store is monotonically non-decreasing
and stays within `[0, 100]`, and whenever the store shows state `failed` its
progress is strictly below 100.  However progress does *not* reach 100 only
together with state `complete`: in a successful full run the last per-output
update of the final stage writes progress 100 while the state is still
`processing`; the `complete` state arrives only with the following update. -/
theorem C5_progress_monotone (sc : Scenario) (k : ℕ) :
    MonoBounded 0 (progressList sc)
    ∧ ((runStore initStore ((startUpds sc).take k)).st = TState.failed →
        (runStore initStore ((startUpds sc).take k)).pr < 100) := by
  obtain ⟨stopAt, localSource, scriptOk, termsOk, audioOk, materialsOk, n⟩ := sc
  by_cases h1 : scriptOk = false
  · constructor
    · simp only [progressList, startUpds, h1, if_pos, failUpds]
      norm_num [MonoBounded]
    · intro _
      refine store_pr_lt_100 _ k ?_
      simp only [startUpds, h1, if_pos, failUpds]
      intro u hu q hq
      fin_cases hu <;> simp_all <;> linarith
  · simp only [startUpds, progressList, h1, if_neg, Bool.not_eq_false]
    by_cases h2 : stopAt = Stage.script
    · constructor
      · simp only [h2, if_pos]
        norm_num [MonoBounded]
      · intro hfail
        exfalso
        refine runStore_st_ne_failed _ initStore (by simp [initStore]) ?_ k hfail
        simp only [h2, if_pos]
        intro u hu
        fin_cases hu <;> simp
    · simp only [h2, if_neg, not_false_iff]
      by_cases h3 : localSource = false ∧ termsOk = false
      · constructor
        · simp only [h3, if_pos, failUpds]
          norm_num [MonoBounded]
        · intro _
          refine store_pr_lt_100 _ k ?_
          simp only [h3, if_pos, failUpds]
          intro u hu q hq
          fin_cases hu <;> simp_all <;> linarith
      · simp only [h3, if_neg, not_false_iff]
        by_cases h4 : stopAt = Stage.terms
        · constructor
          · simp only [h4, if_pos]
            norm_num [MonoBounded]
          · intro hfail
            exfalso
            refine runStore_st_ne_failed _ initStore (by simp [initStore]) ?_ k hfail
            simp only [h4, if_pos]
            intro u hu
            fin_cases hu <;> simp
        · simp only [h4, if_neg, not_false_iff]
          by_cases h5 : audioOk = false
          · constructor
            · simp only [h5, if_pos, failUpds]
              norm_num [MonoBounded]
            · intro _
              refine store_pr_lt_100 _ k ?_
              simp only [h5, if_pos, failUpds]
              intro u hu q hq
              fin_cases hu <;> simp_all <;> linarith
          · simp only [h5, if_neg, Bool.not_eq_false]
            by_cases h6 : stopAt = Stage.audio
            · constructor
              · simp only [h6, if_pos]
                norm_num [MonoBounded]
              · intro hfail
                exfalso
                refine runStore_st_ne_failed _ initStore (by simp [initStore]) ?_ k hfail
                simp only [h6, if_pos]
                intro u hu
                fin_cases hu <;> simp
            · simp only [h6, if_neg, not_false_iff]
              by_cases h7 : stopAt = Stage.subtitle
              · constructor
                · simp only [h7, if_pos]
                  norm_num [MonoBounded]
                · intro hfail
                  exfalso
                  refine runStore_st_ne_failed _ initStore (by simp [initStore]) ?_ k hfail
                  simp only [h7, if_pos]
                  intro u hu
                  fin_cases hu <;> simp
              · simp only [h7, if_neg, not_false_iff]
                by_cases h8 : materialsOk = false
                · constructor
                  · simp only [h8, if_pos, failUpds]
                    norm_num [MonoBounded]
                  · intro _
                    refine store_pr_lt_100 _ k ?_
                    simp only [h8, if_pos, failUpds]
                    intro u hu q hq
                    fin_cases hu <;> simp_all <;> linarith
                · simp only [h8, if_neg, Bool.not_eq_false]
                  by_cases h9 : stopAt = Stage.materials
                  · constructor
                    · simp only [h9, if_pos]
                      norm_num [MonoBounded]
                    · intro hfail
                      exfalso
                      refine runStore_st_ne_failed _ initStore (by simp [initStore]) ?_ k hfail
                      simp only [h9, if_pos]
                      intro u hu
                      fin_cases hu <;> simp
                  · simp only [h9, if_neg, not_false_iff]
                    by_cases h10 : n = 0
                    · subst h10
                      constructor
                      · simp only [if_pos rfl]
                        norm_num [MonoBounded, finalStageUpds, progSeq]
                      · intro _
                        refine store_pr_lt_100 _ k ?_
                        simp only [if_pos rfl]
                        intro u hu q hq
                        simp only [finalStageUpds, progSeq, List.map_nil] at hu
                        fin_cases hu <;> simp_all <;> linarith
                    · have hn : 0 < n := Nat.pos_of_ne_zero h10
                      constructor
                      · simp only [h10, if_neg, not_false_iff,
                          List.filterMap_append, filterMap_finalStageUpds]
                        have hnQ : (n : ℚ) ≠ 0 := by exact_mod_cast h10
                        have hrest : MonoBounded
                            (50 + (((0 : ℕ) : ℚ) + ((2 * n : ℕ) : ℚ))
                              * (25 / (n : ℚ))) [100] := by
                          have h100 : 50 + (((0 : ℕ) : ℚ) + ((2 * n : ℕ) : ℚ))
                              * (25 / (n : ℚ)) = 100 := by
                            push_cast
                            field_simp
                            ring
                          rw [h100]
                          exact ⟨le_refl _, le_refl _, trivial⟩
                        have hfin : MonoBounded 50 (progSeq n 0 (2 * n) ++ [100]) := by
                          have := progSeq_monoBounded n hn [100] (2 * n) 0
                            (by omega) hrest
                          simpa using this
                        simp only [MonoBounded]
                        norm_num
                        simpa using hfin
                      · intro hfail
                        exfalso
                        refine runStore_st_ne_failed _ initStore (by simp [initStore]) ?_ k hfail
                        simp only [h10, if_neg, not_false_iff]
                        intro u hu
                        simp only [List.append_assoc, List.cons_append,
                          List.singleton_append, List.mem_cons, List.mem_append,
                          List.not_mem_nil, or_false, false_or] at hu
                        rcases hu with rfl | rfl | rfl | rfl | rfl | rfl | h | rfl
                        · simp
                        · simp
                        · simp
                        · simp
                        · simp
                        · simp
                        · exact finalStageUpds_st n u h
                        · simp

/-- Witness for C5_progress_monotone at the script-failure scenario after
three updates: the store is failed with progress 5 < 100. -/
theorem C5_progress_monotone_witness :
    MonoBounded 0 (progressList ⟨Stage.video, false, false, true, true, true, 1⟩)
    ∧ ((runStore initStore
          ((startUpds ⟨Stage.video, false, false, true, true, true, 1⟩).take 3)).st
            = TState.failed →
        (runStore initStore
          ((startUpds ⟨Stage.video, false, false, true, true, true, 1⟩).take 3)).pr
            < 100) :=
  C5_progress_monotone ⟨Stage.video, false, false, true, true, true, 1⟩ 3

end MPT
